import Mathlib

/-!
Shallow embedding of the gin engine (gin.go) routing and dispatch layer:
URL parameters, engine configuration, the not-found / not-allowed handler
chains, request dispatch (`serveHTTPRequest`), automatic redirects
(`serveAutoRedirect`), and the error fallback (`serveError`).

Handler functions (`HandlerFunc func(*Context)` in Go) are represented by
opaque identifiers: the claims under verification concern which chain is
installed and how chains are combined, never the body of a handler.
Tree lookup (`node.getValue`) and the case-insensitive path fixer live in
tree.go / path.go, which are not part of the sources here; they are
abstracted as function-valued fields so every theorem quantifies over
their possible behaviours.
-/

namespace Gin

/-- A single URL parameter, consisting of a key and a value (gin.go `Param`). -/
structure Param where
  Key : String
  Value : String
deriving DecidableEq, Repr

/-- A Param-slice, as returned by the router (gin.go `Params`). -/
abbrev Params := List Param

/-- gin.go `Params.ByName`: iterate the slice in order, return the value of
the first entry whose key equals `name`, or `""` when none matches. -/
def Params.ByName (ps : Params) (name : String) : String :=
  match ps with
  | [] => ""
  | entry :: rest => if entry.Key = name then entry.Value else Params.ByName rest name

/-- gin.go `default404Body`. -/
def default404Body : String := "404 page not found"

/-- gin.go `default405Body`. -/
def default405Body : String := "405 method not allowed"

/-- A handler function, represented by an opaque identifier (the claims only
compare chains, never run handlers). -/
structure HandlerFunc where
  id : Nat
deriving DecidableEq, Repr

/-- Result of `node.getValue(path)` (tree.go): the matched handler chain or
`none`, the extracted parameters, and the trailing-slash-redirect flag. -/
structure GetVal where
  handlers : Option (List HandlerFunc)
  params : Params
  tsr : Bool

/-- One method's routing tree, abstracted by its observable behaviour
(tree.go is outside the sources at hand): `getValue` is the lookup, and
`fixPath p rts` stands for `root.findCaseInsensitivePath(CleanPath(p), rts)`,
returning the corrected path when one is found. -/
structure TreeFn where
  getValue : String → GetVal
  fixPath : String → Bool → Option String

/-- The engine state: the fields of gin.go `Engine` that routing and chain
rebuilding read or write. `Handlers` is the `RouterGroup` global middleware
list; `trees` is the method → tree map, as an association list. -/
structure Engine where
  Handlers : List HandlerFunc
  allNoRoute : List HandlerFunc
  allNoMethod : List HandlerFunc
  noRoute : List HandlerFunc
  noMethod : List HandlerFunc
  trees : List (String × TreeFn)
  RedirectTrailingSlash : Bool
  RedirectFixedPath : Bool
  HandleMethodNotAllowed : Bool

/-- gin.go `New()`: a blank engine, no middleware, empty tree map, the
three routing options enabled. -/
def New : Engine :=
  { Handlers := []
    allNoRoute := []
    allNoMethod := []
    noRoute := []
    noMethod := []
    trees := []
    RedirectTrailingSlash := true
    RedirectFixedPath := true
    HandleMethodNotAllowed := true }

/-- Modelled from the spec: `RouterGroup.combineHandlers` (routergroup.go is
not among the sources here) concatenates the group's middleware with the
given handlers, middleware first — "global middleware combined with the
NoRoute handlers". -/
def combineHandlers (engine : Engine) (handlers : List HandlerFunc) : List HandlerFunc :=
  engine.Handlers ++ handlers

/-- gin.go `rebuild404Handlers`: `allNoRoute = combineHandlers(noRoute)`. -/
def rebuild404Handlers (engine : Engine) : Engine :=
  { engine with allNoRoute := combineHandlers engine engine.noRoute }

/-- gin.go `rebuild405Handlers`: `allNoMethod = combineHandlers(noMethod)`. -/
def rebuild405Handlers (engine : Engine) : Engine :=
  { engine with allNoMethod := combineHandlers engine engine.noMethod }

/-- gin.go `Engine.NoRoute`: store the handlers and rebuild `allNoRoute`. -/
def NoRoute (engine : Engine) (handlers : List HandlerFunc) : Engine :=
  rebuild404Handlers { engine with noRoute := handlers }

/-- gin.go `Engine.NoMethod`: store the handlers and rebuild `allNoMethod`. -/
def NoMethod (engine : Engine) (handlers : List HandlerFunc) : Engine :=
  rebuild405Handlers { engine with noMethod := handlers }

/-- gin.go `Engine.Use`: delegate to `RouterGroup.Use` (routergroup.go,
modelled from the spec as appending to the global middleware list), then
rebuild both combined chains. -/
def Use (engine : Engine) (middlewares : List HandlerFunc) : Engine :=
  rebuild405Handlers (rebuild404Handlers
    { engine with Handlers := engine.Handlers ++ middlewares })

/-- A configuration call on the engine: one of `Use`, `NoRoute`, `NoMethod`. -/
inductive EngineOp where
  | use (middlewares : List HandlerFunc)
  | noRoute (handlers : List HandlerFunc)
  | noMethod (handlers : List HandlerFunc)

/-- Apply one configuration call. -/
def applyOp (engine : Engine) : EngineOp → Engine
  | .use ms => Use engine ms
  | .noRoute hs => NoRoute engine hs
  | .noMethod hs => NoMethod engine hs

/-- Apply a sequence of configuration calls, left to right. -/
def applyOps (engine : Engine) (ops : List EngineOp) : Engine :=
  ops.foldl applyOp engine

/-- The routing outcome of one request, as decided by gin.go
`serveHTTPRequest`: dispatch to a matched chain, an automatic redirect
(status code and Location, per the `http.Redirect` contract), or an error
fallback handing a chain, a status code and a default body to `serveError`. -/
inductive Outcome where
  | dispatch (handlers : List HandlerFunc) (params : Params)
  | redirect (code : Nat) (location : String)
  | error (handlers : List HandlerFunc) (code : Nat) (defaultMessage : String)
deriving DecidableEq

/-- gin.go `serveAutoRedirect`: 301 for GET, 307 otherwise; when `tsr` and
`RedirectTrailingSlash`, toggle the trailing slash (drop it when the path is
longer than "/" and ends in '/', append it otherwise) and redirect there;
failing that, when `RedirectFixedPath`, redirect to the case-insensitive
fixed path when the tree finds one. `none` means no redirect was issued. -/
def serveAutoRedirect (rts rfp : Bool) (method path : String)
    (fixPath : String → Bool → Option String) (tsr : Bool) : Option (Nat × String) :=
  let code : Nat := if method = "GET" then 301 else 307
  if tsr && rts then
    let newPath :=
      if path.length > 1 && path.back == '/' then path.dropRight 1 else path ++ "/"
    some (code, newPath)
  else if rfp then
    match fixPath path rts with
    | some fixedPath => some (code, fixedPath)
    | none => none
  else none

/-- The 404/405 fallthrough at the end of gin.go `serveHTTPRequest`: serve
405 with the `allNoMethod` chain when `HandleMethodNotAllowed` and another
method's tree resolves the path to a handler chain; otherwise serve 404 —
with the `allNoMethod` chain again (the code installs `allNoMethod`, not
`allNoRoute`, on the 404 path). -/
def serveNoMatch (engine : Engine) (httpMethod path : String) : Outcome :=
  if engine.HandleMethodNotAllowed &&
      engine.trees.any (fun mr =>
        mr.1 != httpMethod && ((mr.2.getValue path).handlers).isSome) then
    .error engine.allNoMethod 405 default405Body
  else
    .error engine.allNoMethod 404 default404Body

/-- gin.go `serveHTTPRequest`: look up the method's tree; dispatch on a
match; otherwise, for non-CONNECT methods and non-root paths, try the
automatic redirect; otherwise fall through to 405/404 handling. -/
def serveHTTPRequest (engine : Engine) (httpMethod path : String) : Outcome :=
  match engine.trees.lookup httpMethod with
  | some root =>
    let r := root.getValue path
    match r.handlers with
    | some handlers => .dispatch handlers r.params
    | none =>
      if httpMethod != "CONNECT" && path != "/" then
        match serveAutoRedirect engine.RedirectTrailingSlash engine.RedirectFixedPath
            httpMethod path root.fixPath r.tsr with
        | some (code, location) => .redirect code location
        | none => serveNoMatch engine httpMethod path
      else serveNoMatch engine httpMethod path
  | none => serveNoMatch engine httpMethod path

/-- The response-writer state the error fallback observes: the recorded
status code, whether the header/body were already flushed (`Written()`),
and the accumulated body. -/
structure RW where
  status : Int
  written : Bool
  body : String
deriving DecidableEq, Repr

/-- Modelled from the spec: `ResponseWriter.WriteHeaderNow` (response
writer code is not among the sources here) flushes the header with the
recorded status if nothing was flushed yet, and otherwise does nothing. -/
def RW.WriteHeaderNow (w : RW) : RW :=
  if w.written then w else { w with written := true }

/-- Modelled from the spec: `Context.Data(code, contentType, data)`
(context code is not among the sources here) writes `data` as the body,
flushing the header; the negative status code sentinel means "do not write
a status line", i.e. keep the recorded status. -/
def contextData (w : RW) (code : Int) (data : String) : RW :=
  let w := if 0 ≤ code then { w with status := code } else w
  { w with written := true, body := w.body ++ data }

/-- gin.go `serveError`: record `code` as the status, run the installed
chain (abstracted as its net effect `chain` on the writer), then: if
nothing was written and the status still equals `code`, emit the default
message with the status-preserving sentinel; if nothing was written but the
status changed, just flush the header; otherwise leave the chain's
response as is. -/
def serveError (chain : RW → RW) (code : Int) (defaultMessage : String) (w : RW) : RW :=
  let w1 := chain { w with status := code }
  if !w1.written then
    if w1.status = code then contextData w1 (-1) defaultMessage
    else w1.WriteHeaderNow
  else w1

/-- gin.go `Engine.handle` pattern check: panics when the pattern's first
byte is not '/' (`path[0]` on an empty pattern is itself a runtime panic);
`ok` means control reaches `root.addRoute`, the tree insertion. -/
def handle (path : String) : Except String Unit :=
  match path.data with
  | [] => .error "runtime error: index out of range"
  | c :: _ => if c ≠ '/' then .error "path must begin with '/'" else .ok ()

/-- The chain-rebuilding invariant: both combined chains agree with
`combineHandlers` applied to the stored handler lists. -/
def chainInvariant (engine : Engine) : Prop :=
  engine.allNoRoute = combineHandlers engine engine.noRoute ∧
  engine.allNoMethod = combineHandlers engine engine.noMethod

/-- A concrete no-route handler used in concrete evaluations. -/
def hNR : HandlerFunc := ⟨7⟩

/-- An engine with one `NoRoute` handler configured and no routes. -/
def E0 : Engine := NoRoute New [hNR]

/-- A tree whose lookup of "/foo/" misses but reports a trailing-slash
redirect candidate. -/
def t1 : TreeFn :=
  { getValue := fun p =>
      if p == "/foo/" then ⟨none, [], true⟩ else ⟨none, [], false⟩
    fixPath := fun _ _ => none }

/-- An engine with `t1` registered for GET. -/
def E1 : Engine := { New with trees := [("GET", t1)] }

/-- A tree that resolves "/x" to a handler chain. -/
def t2 : TreeFn :=
  { getValue := fun p =>
      if p == "/x" then ⟨some [⟨1⟩], [], false⟩ else ⟨none, [], false⟩
    fixPath := fun _ _ => none }

/-- An engine with `t2` registered for POST only. -/
def E2 : Engine := { New with trees := [("POST", t2)] }

/-- The net writer effect of a handler that aborts with status 500 without
writing anything: the recorded status changes, nothing is flushed. -/
def abortChain : RW → RW := fun w => { w with status := 500 }

/-- The identity chain: a handler chain with no writer effect. -/
def idChain : RW → RW := fun w => w

/-- New establishes the chain invariant. -/
theorem chainInvariant_New : chainInvariant New := ⟨rfl, rfl⟩

/-- Each configuration call preserves the chain invariant. -/
theorem chainInvariant_applyOp (engine : Engine) (op : EngineOp)
    (h : chainInvariant engine) : chainInvariant (applyOp engine op) := by
  cases op with
  | use ms => exact ⟨rfl, rfl⟩
  | noRoute hs =>
    exact ⟨rfl, h.2⟩
  | noMethod hs =>
    exact ⟨h.1, rfl⟩

/-- The 404/405 fallthrough never produces a redirect outcome. -/
theorem serveNoMatch_ne_redirect (engine : Engine) (method path : String)
    (code : Nat) (location : String) :
    serveNoMatch engine method path ≠ .redirect code location := by
  simp only [serveNoMatch]
  split <;> simp

/-- Every error outcome of dispatch comes from the 404/405 fallthrough. -/
theorem serveHTTPRequest_error_from_noMatch (engine : Engine) (method path : String)
    (chain : List HandlerFunc) (code : Nat) (msg : String)
    (h : serveHTTPRequest engine method path = .error chain code msg) :
    serveNoMatch engine method path = .error chain code msg := by
  simp only [serveHTTPRequest] at h
  split at h
  · split at h
    · exact absurd h (by simp)
    · split at h
      · split at h
        · exact absurd h (by simp)
        · exact h
      · exact h
  · exact h

/-- C1: the claim says the 404 outcome runs the configured not-found chain
`allNoRoute`; the code instead installs `allNoMethod` on the 404 path, so
with a `NoRoute` handler configured and no `NoMethod` handlers, a request
matching no route runs the empty `allNoMethod` chain and the `NoRoute`
handler never runs — `allNoRoute` is built by `rebuild404Handlers` but
never read by dispatch. -/
theorem C1_notFound_uses_allNoMethod :
    E0.allNoRoute = [hNR] ∧ E0.allNoMethod = [] ∧
    serveHTTPRequest E0 "GET" "/missing" = .error E0.allNoMethod 404 default404Body ∧
    E0.allNoMethod ≠ E0.allNoRoute := by
  refine ⟨rfl, rfl, ?_, by decide⟩
  rfl

/-- C2: whenever `serveAutoRedirect` issues a redirect (trailing-slash or
fixed-path), its status code is 301 when the method is GET and 307 for
every other method. -/
theorem C2_redirect_code (rts rfp : Bool) (method path : String)
    (fixPath : String → Bool → Option String) (tsr : Bool) (code : Nat) (location : String)
    (h : serveAutoRedirect rts rfp method path fixPath tsr = some (code, location)) :
    code = if method = "GET" then 301 else 307 := by
  simp only [serveAutoRedirect] at h
  split at h
  · simp only [Option.some.injEq, Prod.mk.injEq] at h
    exact h.1.symm
  · split at h
    · split at h
      · simp only [Option.some.injEq, Prod.mk.injEq] at h
        exact h.1.symm
      · exact absurd h (by simp)
    · exact absurd h (by simp)

/-- C2 witness: a POST trailing-slash redirect carries status 307. -/
theorem C2_redirect_code_witness :
    serveAutoRedirect true true "POST" "/foo/" (fun _ _ => none) true = some (307, "/foo") ∧
    (307 : Nat) = if "POST" = "GET" then 301 else 307 := by
  have h : serveAutoRedirect true true "POST" "/foo/" (fun _ _ => none) true = some (307, "/foo") := by
    decide
  exact ⟨h, C2_redirect_code true true "POST" "/foo/" (fun _ _ => none) true 307 "/foo" h⟩

/-- C3 counterexample to the claim as stated: a handler that only changes
the recorded status (an abort) writes no body, yet the 404 default body is
not emitted — the fallback only flushes the header in that case. -/
theorem C3_counterexample :
    (abortChain { status := 404, written := false, body := "" }).written = false ∧
    (abortChain { status := 404, written := false, body := "" }).body = "" ∧
    (serveError abortChain 404 default404Body
      { status := 0, written := false, body := "" }).body ≠ default404Body :=
  ⟨rfl, rfl, by decide⟩

/-- C3 (amended): after the chain runs, a written response is exactly what
the chain wrote; the default body is emitted if and only if nothing was
written and the recorded status still equals the error code; if nothing was
written but the status was changed, only the header is flushed. -/
theorem C3_serveError_amended (chain : RW → RW) (code : Int) (msg : String) (w : RW)
    (hmsg : msg ≠ "") :
    ((chain { w with status := code }).written = true →
      serveError chain code msg w = chain { w with status := code }) ∧
    (serveError chain code msg w = contextData (chain { w with status := code }) (-1) msg ↔
      ((chain { w with status := code }).written = false ∧
        (chain { w with status := code }).status = code)) ∧
    ((chain { w with status := code }).written = false →
      (chain { w with status := code }).status ≠ code →
      serveError chain code msg w = (chain { w with status := code }).WriteHeaderNow) := by
  have hmsglen : msg.length ≠ 0 := by
    intro h0
    apply hmsg
    cases msg with
    | mk data =>
      simp [String.length] at h0
      simp [h0]
  have key : serveError chain code msg w =
      (if (chain { w with status := code }).written = false then
        (if (chain { w with status := code }).status = code then
          contextData (chain { w with status := code }) (-1) msg
        else (chain { w with status := code }).WriteHeaderNow)
      else chain { w with status := code }) := by
    simp only [serveError, Bool.not_eq_true']
  refine ⟨?_, ?_, ?_⟩
  · intro ht
    rw [key, if_neg (by simp [ht])]
  · rw [key]
    by_cases hw : (chain { w with status := code }).written = false
    · rw [if_pos hw]
      by_cases hs : (chain { w with status := code }).status = code
      · rw [if_pos hs]
        exact ⟨fun _ => ⟨hw, hs⟩, fun _ => rfl⟩
      · rw [if_neg hs]
        constructor
        · intro heq
          exfalso
          have hbody := congrArg RW.body heq
          simp only [RW.WriteHeaderNow, hw, contextData] at hbody
          norm_num at hbody
          have hlen := congrArg String.length hbody
          rw [String.length_append] at hlen
          omega
        · intro hq
          exact absurd hq.2 hs
    · rw [if_neg hw]
      constructor
      · intro heq
        exfalso
        have hbody := congrArg RW.body heq
        simp only [contextData] at hbody
        norm_num at hbody
        have hlen := congrArg String.length hbody
        rw [String.length_append] at hlen
        omega
      · intro hq
        exact absurd hq.1 hw
  · intro hw hs
    rw [key, if_pos hw, if_neg hs]

/-- C3 witness: with an effect-free chain, the 404 default body is emitted
(nothing was written and the status is unchanged). -/
theorem C3_serveError_amended_witness :
    default404Body ≠ "" ∧
    (serveError idChain 404 default404Body { status := 0, written := false, body := "" } =
      contextData (idChain { status := 404, written := false, body := "" }) (-1) default404Body ↔
      ((idChain { status := 404, written := false, body := "" }).written = false ∧
       (idChain { status := 404, written := false, body := "" }).status = 404)) := by
  have hmsg : default404Body ≠ "" := by decide
  exact ⟨hmsg,
    (C3_serveError_amended idChain 404 default404Body
      { status := 0, written := false, body := "" } hmsg).2.1⟩

/-- C4: with a trailing-slash redirect candidate reported for "/foo/" and
RedirectTrailingSlash enabled, the engine redirects to "/foo" with status
301 on GET and 307 on POST, whatever the fixed-path setting and fixer. -/
theorem C4_trailing_slash_foo (rfp : Bool) (fixPath : String → Bool → Option String) :
    serveAutoRedirect true rfp "GET" "/foo/" fixPath true = some (301, "/foo") ∧
    serveAutoRedirect true rfp "POST" "/foo/" fixPath true = some (307, "/foo") := by
  constructor <;> (simp [serveAutoRedirect]; decide)

/-- C5: dispatch issues an automatic redirect only for non-CONNECT methods
and non-root paths; a CONNECT request or the root path never yields a
redirect outcome. -/
theorem C5_redirect_guard (engine : Engine) (method path : String)
    (code : Nat) (location : String)
    (h : serveHTTPRequest engine method path = .redirect code location) :
    method ≠ "CONNECT" ∧ path ≠ "/" := by
  simp only [serveHTTPRequest] at h
  split at h
  · split at h
    · exact absurd h (by simp)
    · split at h
      · next hcond =>
        simp only [Bool.and_eq_true, bne_iff_ne] at hcond
        exact hcond
      · next hcond =>
        exact absurd h (serveNoMatch_ne_redirect engine method path code location)
  · exact absurd h (serveNoMatch_ne_redirect engine method path code location)

/-- C5 witness: a GET request for "/foo/" on an engine whose GET tree
reports a trailing-slash candidate is redirected, and indeed the method is
not CONNECT and the path is not the root. -/
theorem C5_redirect_guard_witness :
    serveHTTPRequest E1 "GET" "/foo/" = .redirect 301 "/foo" ∧
    ("GET" ≠ "CONNECT" ∧ "/foo/" ≠ "/") := by
  have h : serveHTTPRequest E1 "GET" "/foo/" = .redirect 301 "/foo" := by decide
  exact ⟨h, C5_redirect_guard E1 "GET" "/foo/" 301 "/foo" h⟩

/-- C6: when dispatch falls through to an error outcome, the status is 405
iff HandleMethodNotAllowed is enabled and some other method's tree resolves
the path to a handler chain, and 404 otherwise. -/
theorem C6_code405_iff (engine : Engine) (method path : String)
    (chain : List HandlerFunc) (code : Nat) (msg : String)
    (h : serveHTTPRequest engine method path = .error chain code msg) :
    (code = 405 ↔ (engine.HandleMethodNotAllowed = true ∧
      ∃ mr ∈ engine.trees, mr.1 ≠ method ∧ ((mr.2.getValue path).handlers).isSome = true)) ∧
    (code = 404 ↔ ¬(engine.HandleMethodNotAllowed = true ∧
      ∃ mr ∈ engine.trees, mr.1 ≠ method ∧ ((mr.2.getValue path).handlers).isSome = true)) := by
  have h2 := serveHTTPRequest_error_from_noMatch engine method path chain code msg h
  simp only [serveNoMatch] at h2
  split at h2
  · next hc =>
    simp only [Outcome.error.injEq] at h2
    have hcode : code = 405 := h2.2.1.symm
    have hP : engine.HandleMethodNotAllowed = true ∧
        ∃ mr ∈ engine.trees, mr.1 ≠ method ∧ ((mr.2.getValue path).handlers).isSome = true := by
      simpa only [Bool.and_eq_true, List.any_eq_true, bne_iff_ne] using hc
    subst hcode
    exact ⟨⟨fun _ => hP, fun _ => rfl⟩, ⟨fun hq => absurd hq (by decide), fun hq => absurd hP hq⟩⟩
  · next hc =>
    simp only [Outcome.error.injEq] at h2
    have hcode : code = 404 := h2.2.1.symm
    have hnP : ¬(engine.HandleMethodNotAllowed = true ∧
        ∃ mr ∈ engine.trees, mr.1 ≠ method ∧ ((mr.2.getValue path).handlers).isSome = true) := by
      simpa only [Bool.and_eq_true, List.any_eq_true, bne_iff_ne] using hc
    subst hcode
    exact ⟨⟨fun hq => absurd hq (by decide), fun hq => absurd hq hnP⟩, ⟨fun _ => hnP, fun _ => rfl⟩⟩

/-- C6 witness: a GET request for "/x" on an engine whose POST tree
resolves "/x" is answered 405. -/
theorem C6_code405_iff_witness :
    serveHTTPRequest E2 "GET" "/x" = .error [] 405 default405Body ∧
    (((405 : Nat) = 405 ↔ (E2.HandleMethodNotAllowed = true ∧
        ∃ mr ∈ E2.trees, mr.1 ≠ "GET" ∧ ((mr.2.getValue "/x").handlers).isSome = true)) ∧
      ((405 : Nat) = 404 ↔ ¬(E2.HandleMethodNotAllowed = true ∧
        ∃ mr ∈ E2.trees, mr.1 ≠ "GET" ∧ ((mr.2.getValue "/x").handlers).isSome = true))) := by
  have h : serveHTTPRequest E2 "GET" "/x" = .error [] 405 default405Body := by decide
  exact ⟨h, C6_code405_iff E2 "GET" "/x" [] 405 default405Body h⟩

/-- C7: route registration panics whenever the pattern's first character
is not '/'; a pattern beginning with '/' is passed on to the tree
insertion without this panic. -/
theorem C7_handle_slash (p : String) (c : Char) (rest : List Char)
    (h : p.data = c :: rest) :
    (c ≠ '/' → handle p = .error "path must begin with '/'") ∧
    (c = '/' → handle p = .ok ()) := by
  constructor <;> intro hc <;> simp [handle, h, hc]

/-- C7 witness: "/a" starts with '/' and is passed on to tree insertion. -/
theorem C7_handle_slash_witness :
    ("/a".data = '/' :: ['a']) ∧ handle "/a" = .ok () :=
  ⟨rfl, (C7_handle_slash "/a" '/' ['a'] rfl).2 rfl⟩

/-- C8: Params.ByName scans the pairs in order and returns the value of
the first pair whose key equals the name (duplicate names are not
disambiguated), and returns the empty string when no pair matches. -/
theorem C8_byName_first (ps : Params) (name : String) :
    ((∀ p ∈ ps, p.Key ≠ name) → Params.ByName ps name = "") ∧
    (∀ pre hit post, ps = pre ++ hit :: post → hit.Key = name →
      (∀ q ∈ pre, q.Key ≠ name) → Params.ByName ps name = hit.Value) := by
  induction ps with
  | nil =>
    refine ⟨fun _ => rfl, fun pre hit post hps _ _ => ?_⟩
    exact absurd hps (by simp)
  | cons p rest ih =>
    constructor
    · intro hnone
      have hp : p.Key ≠ name := hnone p (List.mem_cons_self p rest)
      have : Params.ByName (p :: rest) name = Params.ByName rest name := by
        simp [Params.ByName, hp]
      rw [this]
      exact ih.1 fun q hq => hnone q (List.mem_cons_of_mem p hq)
    · intro pre hit post hps hhit hpre
      cases pre with
      | nil =>
        simp only [List.nil_append, List.cons.injEq] at hps
        obtain ⟨hp, hrest⟩ := hps
        subst hp
        simp [Params.ByName, hhit]
      | cons q pre' =>
        simp only [List.cons_append, List.cons.injEq] at hps
        obtain ⟨hpq, hrest⟩ := hps
        subst hpq
        have hq : p.Key ≠ name := hpre p (List.mem_cons_self p pre')
        have hstep : Params.ByName (p :: rest) name = Params.ByName rest name := by
          simp [Params.ByName, hq]
        rw [hstep]
        exact ih.2 pre' hit post hrest hhit fun r hr => hpre r (List.mem_cons_of_mem p hr)

/-- C8 witness: on a list with a duplicated key, ByName returns the first
value. -/
theorem C8_byName_first_witness :
    Params.ByName [⟨"a", "1"⟩, ⟨"a", "2"⟩] "a" = "1" :=
  (C8_byName_first [⟨"a", "1"⟩, ⟨"a", "2"⟩] "a").2 [] ⟨"a", "1"⟩ [⟨"a", "2"⟩] rfl rfl
    (by intro q hq; exact absurd hq (by simp))

/-- C9: An Engine returned by New() has RedirectTrailingSlash,
RedirectFixedPath, and HandleMethodNotAllowed all enabled, an empty
method-to-tree map, and no middleware attached. -/
theorem C9_new_defaults :
    New.RedirectTrailingSlash = true ∧ New.RedirectFixedPath = true ∧
    New.HandleMethodNotAllowed = true ∧ New.trees = [] ∧
    New.Handlers = [] ∧ New.allNoRoute = [] ∧ New.allNoMethod = [] :=
  ⟨rfl, rfl, rfl, rfl, rfl, rfl, rfl⟩

/-- C10: After any sequence of Use, NoRoute, and NoMethod calls starting
from New(), allNoRoute equals the global middleware combined with the
NoRoute handlers and allNoMethod equals the global middleware combined
with the NoMethod handlers. -/
theorem C10_chain_invariant (ops : List EngineOp) :
    chainInvariant (applyOps New ops) := by
  suffices h : ∀ engine, chainInvariant engine → chainInvariant (applyOps engine ops) from
    h New chainInvariant_New
  induction ops with
  | nil => exact fun engine h => h
  | cons op rest ih =>
    intro engine h
    exact ih (applyOp engine op) (chainInvariant_applyOp engine op h)

end Gin
